import Mathlib

/-!
# Verification of the agent-loop core (ReAct / tool-calling agents)

A shallow embedding of the tool-call extraction, argument coercion, tool
dispatch and agent-loop code of `python_classes/ReAct_agent/agent.py`,
`python_classes/tool_calling_agent/agent.py` and
`python_classes/tool_calling_agent/decorators.py`, together with theorems
settling the behavioural claims about that code.

Python runtime values that can occur in this code (everything that flows
through `json.loads`, argument coercion and tool invocation) are embedded
as the inductive `PyVal`.  Python exceptions that can escape a function are
embedded as `Except PyError`; exceptions that the source catches locally are
folded away exactly where the source catches them.  Machine floats never
undergo arithmetic here (they are only parsed, compared to zero, converted
and printed), so they are embedded exactly as rationals.
-/

set_option maxHeartbeats 1000000
set_option maxRecDepth 100000

namespace AgentCore

/-- Embedding of the Python runtime values handled by the agent core:
the JSON-shaped values produced by `json.loads`, plus `None`. -/
inductive PyVal where
  | none : PyVal
  | bool (b : Bool) : PyVal
  | int (n : Int) : PyVal
  | float (q : Rat) : PyVal
  | str (s : String) : PyVal
  | list (xs : List PyVal) : PyVal
  | obj (kvs : List (String × PyVal)) : PyVal

/-- The Python exceptions that can escape the embedded functions
(everything the source fails to catch). -/
inductive PyError where
  | typeError : PyError
  | attributeError : PyError
  deriving DecidableEq

/-- `v.isObj` holds when `v` is a Python dict. -/
def PyVal.isObj : PyVal → Bool
  | .obj _ => true
  | _ => false

/-- `v.isBool` holds when `v` is a Python bool. -/
def PyVal.isBool : PyVal → Bool
  | .bool _ => true
  | _ => false

/-- `v.isInt` holds when `v` is a Python int (excluding bool). -/
def PyVal.isInt : PyVal → Bool
  | .int _ => true
  | _ => false

/-- `v.isStr` holds when `v` is a Python str. -/
def PyVal.isStr : PyVal → Bool
  | .str _ => true
  | _ => false

/-- `v.isFloat` holds when `v` is a Python float. -/
def PyVal.isFloat : PyVal → Bool
  | .float _ => true
  | _ => false

/-- Python dict key membership (`k in d` for a dict `d`). -/
def hasKey (kvs : List (String × PyVal)) (k : String) : Bool :=
  kvs.any (fun p => p.1 == k)

/-- Python dict read `d[k]` / `d.get(k)`: the value stored at key `k`.
The embedded dicts keep one entry per key (see `dictInsert`), so the first
match is the entry. -/
def dictGet (kvs : List (String × PyVal)) (k : String) : Option PyVal :=
  (kvs.find? (fun p => p.1 == k)).map (fun p => p.2)

/-- Python dict read with default, `d.get(k, dflt)`. -/
def dictGetD (kvs : List (String × PyVal)) (k : String) (dflt : PyVal) : PyVal :=
  (dictGet kvs k).getD dflt

/-- Python dict write `d[k] = v`: overwrite the value at an existing key
(keeping its position), otherwise append a fresh entry.  This is exactly
the insertion-ordered update semantics of a CPython dict. -/
def dictInsert (kvs : List (String × PyVal)) (k : String) (v : PyVal) :
    List (String × PyVal) :=
  if hasKey kvs k then
    kvs.map (fun p => if p.1 == k then (p.1, v) else p)
  else
    kvs ++ [(k, v)]

/-- Python truthiness, `bool(v)`: zero numbers, empty containers, the empty
string and `None` are falsy, everything else is truthy. -/
def pyTruthy : PyVal → Bool
  | .none => false
  | .bool b => b
  | .int n => n != 0
  | .float q => q != 0
  | .str s => s != ""
  | .list xs => !xs.isEmpty
  | .obj kvs => !kvs.isEmpty

/-- The four target conversions of the coercion type map
(`int`, `str`, `bool`, `float`). -/
inductive PyConv where
  | toInt : PyConv
  | toStr : PyConv
  | toBool : PyConv
  | toFloat : PyConv
  deriving DecidableEq

/-- The `type_mapping` dict of `convert_argument_types` (both agents):
the eight accepted type tags and their target conversions. -/
def typeMapping : String → Option PyConv
  | "int" => some .toInt
  | "str" => some .toStr
  | "bool" => some .toBool
  | "float" => some .toFloat
  | "integer" => some .toInt
  | "string" => some .toStr
  | "boolean" => some .toBool
  | "number" => some .toFloat
  | _ => Option.none

/-- Python `isinstance(v, cls)` for the four converter classes.  Note the
CPython quirk that `bool` is a subclass of `int`, so a bool is an instance
of `int`. -/
def pyIsInstance (v : PyVal) : PyConv → Bool
  | .toInt => v.isInt || v.isBool
  | .toStr => v.isStr
  | .toBool => v.isBool
  | .toFloat => v.isFloat

/-- Helper: the numeric value of a decimal digit character
(code point 48 is `0`). -/
def digitVal (c : Char) : Nat := c.toNat - 48

/-- Helper: the decimal value of a digit run. -/
def digitsToNat (ds : List Char) : Nat :=
  ds.foldl (fun acc c => 10 * acc + digitVal c) 0

/-- The whitespace characters stripped by `str.strip()` (ASCII part). -/
def pyWhitespaceChars : List Char := [' ', '\t', '\n', '\r', '\x0b', '\x0c']

/-- Python whitespace test used by `str.strip()`. -/
def pyIsSpace (c : Char) : Bool := pyWhitespaceChars.contains c

/-- `str.strip()` on a character list. -/
def stripChars (cs : List Char) : List Char :=
  ((cs.dropWhile pyIsSpace).reverse.dropWhile pyIsSpace).reverse

/-- `str.strip()`. -/
def pyStrip (s : String) : String :=
  String.mk (stripChars s.toList)

/-- Python `int(s)` on a string: strips whitespace, accepts an optional
sign followed by at least one digit; anything else raises `ValueError`
(embedded as `Option.none`). -/
def parsePyInt (s : String) : Option Int :=
  let cs := stripChars s.toList
  let core : List Char → Option Nat := fun ds =>
    if ds.isEmpty then Option.none
    else if ds.all (fun c => c.isDigit) then some (digitsToNat ds)
    else Option.none
  match cs with
  | '-' :: rest => (core rest).map (fun n => -(n : Int))
  | '+' :: rest => (core rest).map (fun n => (n : Int))
  | _ => (core cs).map (fun n => (n : Int))

/-- Python `float(s)` on a string: strips whitespace, accepts an optional
sign, digits, an optional fractional part (exponent forms are not used by
this code base and are not modelled); anything else raises `ValueError`
(embedded as `Option.none`). -/
def parsePyFloat (s : String) : Option Rat :=
  let cs := stripChars s.toList
  let split : List Char → Option Rat := fun ds =>
    let intPart := ds.takeWhile (fun c => c.isDigit)
    let rest := ds.dropWhile (fun c => c.isDigit)
    match rest with
    | [] =>
      if intPart.isEmpty then Option.none
      else some ((digitsToNat intPart : Int) : Rat)
    | '.' :: frac =>
      if frac.all (fun c => c.isDigit) && !(intPart.isEmpty && frac.isEmpty) then
        some (((digitsToNat intPart : Int) : Rat) +
          ((digitsToNat frac : Int) : Rat) / ((10 ^ frac.length : Int) : Rat))
      else Option.none
    | _ => Option.none
  match cs with
  | '-' :: rest => (split rest).map (fun q => -q)
  | '+' :: rest => (split rest).map (fun q => q)
  | _ => split cs

/-- Decimal rendering of the rationals that arise from parsed float
literals (denominator a divisor of a power of ten); rationals outside that
range cannot be produced by the embedded parsing functions. -/
def floatLit (q : Rat) : String :=
  let sign := if q < 0 then "-" else ""
  let q := |q|
  let rec findExp : Nat → Nat → Option Nat
    | 0, _ => Option.none
    | fuel + 1, k =>
      if ((10 : Int) ^ k) % (q.den : Int) == 0 then some k
      else findExp fuel (k + 1)
  match findExp 40 0 with
  | some 0 => sign ++ toString q.num ++ ".0"
  | some k =>
    let scaled := (q.num * ((10 : Int) ^ k / (q.den : Int))).toNat
    let digits := toString scaled
    let digits :=
      if digits.length ≤ k then String.mk (List.replicate (k + 1 - digits.length) '0') ++ digits
      else digits
    let cut := digits.length - k
    sign ++ String.mk (digits.toList.take cut) ++ "." ++ String.mk (digits.toList.drop cut)
  | Option.none => sign ++ toString q.num ++ "/" ++ toString q.den

/-- JSON string escaping as performed by `json.dumps` for the characters
that occur in this code base. -/
def jsonEscape (s : String) : String :=
  String.join (s.toList.map (fun c =>
    if c == '"' then "\\\""
    else if c == '\\' then "\\\\"
    else if c == '\n' then "\\n"
    else if c == '\t' then "\\t"
    else if c == '\r' then "\\r"
    else String.mk [c]))

/-- `json.dumps(v)` with default separators, rendered to the depth given by
`fuel`.  Every value serialised by the source (tool specifications, tool
arguments, tool results) has small bounded depth, so a fixed fuel of 32 in
`pyDumps` renders them completely. -/
def pyDumpsF : Nat → PyVal → String
  | 0, _ => ""
  | fuel + 1, v =>
    match v with
    | .none => "null"
    | .bool b => if b then "true" else "false"
    | .int n => toString n
    | .float q => floatLit q
    | .str s => "\"" ++ jsonEscape s ++ "\""
    | .list xs =>
      "[" ++ String.intercalate ", " (xs.map (pyDumpsF fuel)) ++ "]"
    | .obj kvs =>
      "\x7b" ++ String.intercalate ", "
        (kvs.map (fun p => "\"" ++ jsonEscape p.1 ++ "\": " ++ pyDumpsF fuel p.2)) ++ "\x7d"

/-- `json.dumps(v)` (depth-bounded rendering, see `pyDumpsF`). -/
def pyDumps (v : PyVal) : String := pyDumpsF 32 v

/-- Python `repr` for the scalar shapes (used by `str` on containers),
rendered to bounded depth like `pyDumpsF`. -/
def pyReprF : Nat → PyVal → String
  | 0, _ => ""
  | fuel + 1, v =>
    match v with
    | .none => "None"
    | .bool b => if b then "True" else "False"
    | .int n => toString n
    | .float q => floatLit q
    | .str s => "'" ++ s ++ "'"
    | .list xs =>
      "[" ++ String.intercalate ", " (xs.map (pyReprF fuel)) ++ "]"
    | .obj kvs =>
      "\x7b" ++ String.intercalate ", "
        (kvs.map (fun p => "'" ++ p.1 ++ "': " ++ pyReprF fuel p.2)) ++ "\x7d"

/-- Python `str(v)`. -/
def pyStr : PyVal → String
  | .none => "None"
  | .bool b => if b then "True" else "False"
  | .int n => toString n
  | .float q => floatLit q
  | .str s => s
  | .list xs => pyReprF 32 (.list xs)
  | .obj kvs => pyReprF 32 (.obj kvs)

/-! ## `json.loads`

A recursive-descent parser for the JSON fragment exchanged by this code
(objects, arrays, strings with the simple escapes, integer and decimal
number literals, `true`/`false`/`null`).  A failed parse models
`json.JSONDecodeError` and is returned as `Option.none`.  The `fuel`
argument only forces termination; `2 * length + 4` fuel always suffices
for the nesting this grammar can produce. -/

/-- The four JSON inter-token whitespace characters. -/
def jsonWsChars : List Char := [' ', '\t', '\n', '\r']

/-- Skip JSON inter-token whitespace. -/
def skipWs (cs : List Char) : List Char :=
  cs.dropWhile (fun c => jsonWsChars.contains c)

/-- The short escapes of a JSON string literal: the escape letter paired
with the character it denotes (`\x08` is backspace, `\x0c` form feed). -/
def jsonEscapeTable : List (Char × Char) :=
  [('"', '"'), ('\\', '\\'), ('/', '/'), ('n', '\n'),
   ('t', '\t'), ('r', '\r'), ('b', '\x08'), ('f', '\x0c')]

/-- Parse the remainder of a JSON string literal (after the opening
quote); returns the content and the characters after the closing quote. -/
def parseStringRest : List Char → Option (List Char × List Char)
  | [] => Option.none
  | '"' :: rest => some ([], rest)
  | '\\' :: c :: rest =>
    let esc : Option Char :=
      (jsonEscapeTable.find? (fun p => p.1 == c)).map (fun p => p.2)
    match esc, parseStringRest rest with
    | some e, some (content, rem) => some (e :: content, rem)
    | _, _ => Option.none
  | c :: rest =>
    match parseStringRest rest with
    | some (content, rem) => some (c :: content, rem)
    | Option.none => Option.none

/-- Parse a JSON number literal (integer or decimal fraction). -/
def parseJsonNumber (cs : List Char) : Option (PyVal × List Char) :=
  let go : List Char → Option (PyVal × List Char) := fun ds =>
    let intPart := ds.takeWhile (fun c => c.isDigit)
    let rest := ds.dropWhile (fun c => c.isDigit)
    if intPart.isEmpty then Option.none
    else
      match rest with
      | '.' :: frac0 =>
        let fracPart := frac0.takeWhile (fun c => c.isDigit)
        let rest2 := frac0.dropWhile (fun c => c.isDigit)
        if fracPart.isEmpty then Option.none
        else
          some (.float (((digitsToNat intPart : Int) : Rat) +
            ((digitsToNat fracPart : Int) : Rat) / ((10 ^ fracPart.length : Int) : Rat)),
            rest2)
      | _ => some (.int (digitsToNat intPart : Int), rest)
  match cs with
  | '-' :: ds =>
    match go ds with
    | some (.int n, rest) => some (.int (-n), rest)
    | some (.float q, rest) => some (.float (-q), rest)
    | _ => Option.none
  | _ => go cs

mutual

/-- Parse one JSON value (leading whitespace allowed). -/
def parseVal : Nat → List Char → Option (PyVal × List Char)
  | 0, _ => Option.none
  | fuel + 1, cs =>
    let cs2 := skipWs cs
    if "null".toList.isPrefixOf cs2 then some (.none, cs2.drop 4)
    else if "true".toList.isPrefixOf cs2 then some (.bool true, cs2.drop 4)
    else if "false".toList.isPrefixOf cs2 then some (.bool false, cs2.drop 5)
    else
    match cs2 with
    | '"' :: rest =>
      match parseStringRest rest with
      | some (content, rem) => some (.str (String.mk content), rem)
      | Option.none => Option.none
    | '[' :: rest =>
      (match skipWs rest with
       | ']' :: rem => some (.list [], rem)
       | _ => parseItems fuel rest [])
    | '{' :: rest =>
      (match skipWs rest with
       | '}' :: rem => some (.obj [], rem)
       | _ => parseMembers fuel rest [])
    | other => parseJsonNumber other

/-- Parse the comma-separated items of a JSON array (after `[`). -/
def parseItems : Nat → List Char → List PyVal → Option (PyVal × List Char)
  | 0, _, _ => Option.none
  | fuel + 1, cs, acc =>
    match parseVal fuel cs with
    | some (v, rest) =>
      (match skipWs rest with
       | ',' :: rest2 => parseItems fuel rest2 (acc ++ [v])
       | ']' :: rest2 => some (.list (acc ++ [v]), rest2)
       | _ => Option.none)
    | Option.none => Option.none

/-- Parse the comma-separated members of a JSON object (after `{`).
Duplicate keys follow Python semantics: the last value for a key wins. -/
def parseMembers : Nat → List Char → List (String × PyVal) →
    Option (PyVal × List Char)
  | 0, _, _ => Option.none
  | fuel + 1, cs, acc =>
    match skipWs cs with
    | '"' :: rest =>
      (match parseStringRest rest with
       | some (key, afterKey) =>
         (match skipWs afterKey with
          | ':' :: afterColon =>
            (match parseVal fuel afterColon with
             | some (v, rest2) =>
               let acc := dictInsert acc (String.mk key) v
               (match skipWs rest2 with
                | ',' :: rest3 => parseMembers fuel rest3 acc
                | '}' :: rest3 => some (.obj acc, rest3)
                | _ => Option.none)
             | Option.none => Option.none)
          | _ => Option.none)
       | Option.none => Option.none)
    | _ => Option.none

end

/-- `json.loads(s)`: parse one JSON document; trailing non-whitespace is an
error ("Extra data"), as is any syntax error — both are embedded as
`Option.none` standing for `json.JSONDecodeError`. -/
def json_loads (s : String) : Option PyVal :=
  let cs := s.toList
  match parseVal (2 * cs.length + 4) cs with
  | some (v, rest) => if (skipWs rest).isEmpty then some v else Option.none
  | Option.none => Option.none

/-! ## Directive extraction (`extract_tool_calls`, `extract_final_response`) -/

/-- Find the first occurrence of the literal `pat` in `cs`: returns the
text before the occurrence and the text after it.  This is the leftmost
match, exactly as the regular-expression engine finds literal patterns. -/
def findTag (pat : List Char) : List Char → Option (List Char × List Char)
  | [] => if pat.isEmpty then some ([], []) else Option.none
  | c :: cs =>
    if pat.isPrefixOf (c :: cs) then some ([], (c :: cs).drop pat.length)
    else
      match findTag pat cs with
      | some (pre, post) => some (c :: pre, post)
      | Option.none => Option.none

/-- The captures of `re.findall(r"<tool_call>(.*?)</tool_call>", s, re.DOTALL)`:
for each leftmost `<tool_call>` opener, the (non-greedy) capture runs to the
first `</tool_call>` after it, and scanning resumes after that closer. -/
def toolCallSpansF : Nat → List Char → List (List Char)
  | 0, _ => []
  | fuel + 1, s =>
    match findTag "<tool_call>".toList s with
    | Option.none => []
    | some (_, afterOpen) =>
      match findTag "</tool_call>".toList afterOpen with
      | Option.none => []
      | some (inner, afterClose) => inner :: toolCallSpansF fuel afterClose

/-- All `<tool_call>…</tool_call>` captures of a response, in order of
appearance. -/
def toolCallSpans (s : String) : List String :=
  (toolCallSpansF s.toList.length s.toList).map String.mk

/-- Python `"k" in v` for an arbitrary value `v`: key membership for a
dict, element membership for a list, substring test for a str, and a
`TypeError` for the non-container values. -/
def pyInStr (needle : String) : PyVal → Except PyError Bool
  | .obj kvs => .ok (hasKey kvs needle)
  | .list xs => .ok (xs.any (fun v => match v with
      | .str t => t == needle
      | _ => false))
  | .str s => .ok (findTag needle.toList s.toList).isSome
  | _ => .error .typeError

/-- The per-span body of `extract_tool_calls`: parse the stripped span,
drop it on a parse failure (`json.JSONDecodeError` is caught), keep it when
`"name" in tool_call and "arguments" in tool_call` holds; the membership
test itself can raise `TypeError` on a non-container payload, which the
source does not catch. -/
def processSpans : List String → Except PyError (List PyVal)
  | [] => .ok []
  | m :: rest =>
    match json_loads (pyStrip m) with
    | Option.none => processSpans rest
    | some tc => do
      let hasName ← pyInStr "name" tc
      let keep ← if hasName then pyInStr "arguments" tc else pure false
      let tail ← processSpans rest
      pure (if keep then tc :: tail else tail)

/-- `extract_tool_calls` (identical in `ReActAgent` and
`ToolCallingAgent`): scan the response for `<tool_call>` spans and keep the
parsed payloads that carry both a `"name"` and an `"arguments"` key. -/
def extract_tool_calls (response : String) : Except PyError (List PyVal) :=
  processSpans (toolCallSpans response)

/-- `extract_final_response`: the trimmed capture of the first
`<response>…</response>` span, if any (`re.search` with a non-greedy
DOTALL group, then `.strip()`). -/
def extract_final_response (response : String) : Option String :=
  match findTag "<response>".toList response.toList with
  | Option.none => Option.none
  | some (_, afterOpen) =>
    match findTag "</response>".toList afterOpen with
    | Option.none => Option.none
    | some (inner, _) => some (String.mk (stripChars inner))

/-! ## Argument coercion (`convert_argument_types`) -/

/-- The conversion call `converter(arg_value)` of `convert_argument_types`:
`str()` and `bool()` are total, `int()` and `float()` raise
`ValueError`/`TypeError` (embedded as `Option.none`) on unsuitable input. -/
def pyConvert : PyConv → PyVal → Option PyVal
  | .toStr, v => some (.str (pyStr v))
  | .toBool, v => some (.bool (pyTruthy v))
  | .toInt, v =>
    match v with
    | .bool b => some (.int (if b then 1 else 0))
    | .int n => some (.int n)
    | .float q => some (.int (Int.tdiv q.num (q.den : Int)))
    | .str s => (parsePyInt s).map (fun n => .int n)
    | _ => Option.none
  | .toFloat, v =>
    match v with
    | .bool b => some (.float (if b then 1 else 0))
    | .int n => some (.float (n : Rat))
    | .float q => some (.float q)
    | .str s => (parsePyFloat s).map (fun q => .float q)
    | _ => Option.none

/-- The `parameters.properties` section of a parsed tool specification, or
`Option.none` when the specification lacks it (the short-circuit guard of
`convert_argument_types`). -/
def propsOf (spec : PyVal) : Option (List (String × PyVal)) :=
  match spec with
  | .obj kvs =>
    match dictGet kvs "parameters" with
    | some (.obj pkvs) =>
      match dictGet pkvs "properties" with
      | some (.obj props) => some props
      | _ => Option.none
    | _ => Option.none
  | _ => Option.none

/-- The declared type tag of argument `n`:
`properties[n]["type"]` when present. -/
def declaredTag (props : List (String × PyVal)) (n : String) : Option String :=
  match dictGet props n with
  | some (.obj pk) =>
    match dictGet pk "type" with
    | some (.str tag) => some tag
    | _ => Option.none
  | _ => Option.none

/-- One iteration of the coercion loop: convert the value when the argument
has a declared tag known to the type map and the value is not already an
instance of the target class; a conversion error is caught and the original
value kept. -/
def convertEntry (props : List (String × PyVal)) (e : String × PyVal) :
    String × PyVal :=
  match (declaredTag props e.1).bind typeMapping with
  | some conv =>
    if pyIsInstance e.2 conv then e
    else
      match pyConvert conv e.2 with
      | some v => (e.1, v)
      | Option.none => e
  | Option.none => e

/-- `convert_argument_types` (identical in `ReActAgent` and
`ToolCallingAgent`): no-op without a `parameters.properties` section,
otherwise the per-argument coercion applied to every argument.  The Python
loop rebinds `tool_call["arguments"][name]` for each key of the dict it is
iterating, which on the embedded association list is exactly a map. -/
def convert_argument_types (spec : PyVal) (args : List (String × PyVal)) :
    List (String × PyVal) :=
  match propsOf spec with
  | Option.none => args
  | some props => args.map (convertEntry props)

/-- The composite declared conversion of argument `n` under `spec`
(declared tag looked up in the type map). -/
def declaredConv (spec : PyVal) (n : String) : Option PyConv :=
  (propsOf spec).bind (fun props => (declaredTag props n).bind typeMapping)

/-! ## Tool registration (`extract_function_metadata`, `tool`, registry) -/

/-- The reflection view of a Python callable that tool registration reads:
its `__name__`, its `__doc__`, its `__annotations__` (an insertion-ordered
dict from parameter name to the annotation's `__name__`, possibly including
a `"return"` entry), and — for stating the specification claim — the full
declared parameter-name list of its signature.  CPython guarantees the
annotation keys are distinct (they are dict keys). -/
structure PyFunc where
  name : String
  doc : Option String
  anns : List (String × String)
  params : List String

/-- The `parameter_types` dict comprehension of `extract_function_metadata`:
one `{"type": t}` record per annotation entry other than `"return"`. -/
def propsOfAnns (anns : List (String × String)) : List (String × PyVal) :=
  anns.foldl
    (fun acc p =>
      if p.1 == "return" then acc
      else dictInsert acc p.1 (.obj [("type", .str p.2)]))
    []

/-- `extract_function_metadata` (identical in `ReAct_agent/agent.py` and
`tool_calling_agent/decorators.py`): the metadata dict
`{name, description, parameters: {properties}}` derived from the callable. -/
def extract_function_metadata (f : PyFunc) : PyVal :=
  .obj [("name", .str f.name),
        ("description", match f.doc with | some d => .str d | Option.none => .none),
        ("parameters", .obj [("properties", .obj (propsOfAnns f.anns))])]

/-- The parameter-name list of a serialisable specification record
(`metadata["parameters"]["properties"].keys()`). -/
def metaPropNames (m : PyVal) : List String :=
  match propsOf m with
  | some props => props.map (fun p => p.1)
  | Option.none => []

/-- A registered tool: its name, the wrapped callable (a kwargs-to-result
function that either returns a value or raises, embedded as `Except` with
the exception's message), and the JSON specification text. -/
structure Tool where
  name : String
  func : List (String × PyVal) → Except String PyVal
  specification : String

/-- The `@tool` decorator: wrap a callable into a `Tool` carrying
`json.dumps` of its derived metadata (the callable's behaviour is supplied
as `impl`). -/
def tool (f : PyFunc) (impl : List (String × PyVal) → Except String PyVal) : Tool :=
  { name := f.name
    func := impl
    specification := pyDumps (extract_function_metadata f) }

/-- Dict write for the tool registry (same CPython dict semantics as
`dictInsert`). -/
def regInsert (reg : List (String × Tool)) (t : Tool) : List (String × Tool) :=
  if reg.any (fun p => p.1 == t.name) then
    reg.map (fun p => if p.1 == t.name then (p.1, t) else p)
  else
    reg ++ [(t.name, t)]

/-- The registry construction `{tool.name: tool for tool in tools}` of both
agents' constructors. -/
def buildRegistry (tools : List Tool) : List (String × Tool) :=
  tools.foldl regInsert []

/-- Registry lookup `self.tools[name]` / `name in self.tools`. -/
def regLookup (reg : List (String × Tool)) (n : String) : Option Tool :=
  (reg.find? (fun p => p.1 == n)).map (fun p => p.2)

/-! ## Tool dispatch (`execute_tool`)

`ReActAgent.execute_tool` and `ToolCallingAgent.execute_tool` coincide on
the embedded `Tool` shape: for a `Tool` the ToolCalling variant always
takes its first probe (`hasattr(tool, "execute")`, and `Tool.execute`
simply calls the wrapped function), and the exception classes the two
variants catch around argument validation both cover everything the (total)
embedded validation can produce.  Both are therefore embedded as the one
function `execute_tool`. -/

/-- The argument-validation block of `execute_tool`: parse the tool's
specification (`json.JSONDecodeError` is caught, keeping the original
arguments) and run `convert_argument_types`; a non-dict `arguments` value
makes the conversion loop raise, which is caught, keeping the original
value. -/
def validated_args (t : Tool) (args : PyVal) : PyVal :=
  match json_loads t.specification with
  | Option.none => args
  | some spec =>
    match args with
    | .obj akvs => .obj (convert_argument_types spec akvs)
    | _ => args

/-- The validated keyword arguments actually passed to a tool whose
`arguments` payload is the dict `akvs`. -/
def effectiveArgs (t : Tool) (akvs : List (String × PyVal)) :
    List (String × PyVal) :=
  match json_loads t.specification with
  | Option.none => akvs
  | some spec => convert_argument_types spec akvs

/-- The body of `execute_tool` on a dict payload: resolve the name against
the registry, validate the arguments, invoke the tool; an unknown name and
any exception raised by the invocation (including a non-mapping `**`
unpacking) become textual error results. -/
def execObj (reg : List (String × Tool)) (kvs : List (String × PyVal)) : PyVal :=
  let toolName := dictGetD kvs "name" .none
  match toolName with
  | .str n =>
    match regLookup reg n with
    | Option.none => .str ("Error: Tool '" ++ n ++ "' not found")
    | some t =>
      let args := dictGetD kvs "arguments" (.obj [])
      match validated_args t args with
      | .obj akvs =>
        match t.func akvs with
        | .ok v => v
        | .error msg => .str ("Error executing " ++ n ++ ": " ++ msg)
      | _ => .str ("Error executing " ++ n ++ ": argument after ** must be a mapping")
  | other => .str ("Error: Tool '" ++ pyStr other ++ "' not found")

/-- `execute_tool` on an extracted tool-call record: a dict payload never
raises (every failure is folded into a textual result), while
`tool_call.get(...)` on a non-dict record raises `AttributeError`, which
the callers do not catch. -/
def execute_tool (reg : List (String × Tool)) (tc : PyVal) :
    Except PyError PyVal :=
  match tc with
  | .obj kvs => .ok (execObj reg kvs)
  | _ => .error .attributeError

/-- The tool-execution loop of both `run` methods: dispatch every extracted
record in order, pairing each record with its result. -/
def executeAll (reg : List (String × Tool)) :
    List PyVal → Except PyError (List (PyVal × PyVal))
  | [] => .ok []
  | tc :: rest => do
    let r ← execute_tool reg tc
    let rs ← executeAll reg rest
    pure ((tc, r) :: rs)

/-! ## The agent loops -/

/-- A role-tagged message of the conversation. -/
structure Message where
  role : String
  content : String
  deriving DecidableEq

/-- One line of the `Tool results:` block:
`- {tool}{json.dumps(arguments)}: {result}` (structured results rendered as
JSON, scalars via `str`; the pretty-printing indentation of the source's
`json.dumps(..., indent=2)` is abstracted to the flat rendering). -/
def resultLine (p : PyVal × PyVal) : String :=
  let toolName := match p.1 with
    | .obj kvs => dictGetD kvs "name" .none
    | _ => .none
  let argsVal := match p.1 with
    | .obj kvs => dictGetD kvs "arguments" .none
    | _ => .none
  let resStr := match p.2 with
    | .obj _ => pyDumps p.2
    | .list _ => pyDumps p.2
    | _ => pyStr p.2
  "- " ++ pyStr toolName ++ pyDumps argsVal ++ ": " ++ resStr ++ "\n"

/-- The `Tool results:` block appended to the conversation after a round of
tool execution. -/
def resultsText (results : List (PyVal × PyVal)) : String :=
  "Tool results:\n" ++ String.join (results.map resultLine)

/-- The sentinel returned when the iteration budget is exhausted. -/
def maxIterSentinel : String := "Max iterations reached without a final response."

/-- The `ReActAgent`: completion capability (a pure function from the
message list to the completion text), system prompt, tool registry,
conversation history, iteration bound. -/
structure ReActAgent where
  llm : List Message → String
  system_prompt : String
  tools : List (String × Tool)
  conversation_history : List Message
  max_iterations : Nat

/-- `ReActAgent.__init__`: builds the registry from the tool list and
starts with an empty history. -/
def ReActAgent.make (llm : List Message → String) (system_prompt : String)
    (tools : List Tool) (max_iterations : Nat) : ReActAgent :=
  { llm := llm
    system_prompt := system_prompt
    tools := buildRegistry tools
    conversation_history := []
    max_iterations := max_iterations }

/-- `format_tools_for_prompt`: the `<tools>…</tools>` block containing the
registered specifications (the pretty-printing indentation of
`json.dumps(..., indent=2)` is abstracted to the flat rendering; a
specification that fails to parse is skipped — unreachable for decorator
specifications). -/
def format_tools_for_prompt (reg : List (String × Tool)) : String :=
  let tools_json := reg.filterMap (fun p => json_loads p.2.specification)
  "<tools>\n" ++ "[" ++ String.intercalate ", " (tools_json.map pyDumps) ++ "]" ++ "\n</tools>"

/-- The outcome of one `run` call: the returned value, the conversation
history as left by the method, and the observable event counts (number of
completion calls made; the tool-call records passed to `execute_tool`, in
dispatch order).  The counts are ghost instrumentation: they record how
often the embedded `run` invokes the collaborator and the dispatcher. -/
structure RunTrace where
  answer : String
  history : List Message
  llmCalls : Nat
  dispatched : List PyVal

/-- The `while iterations < self.max_iterations` loop of `ReActAgent.run`,
with the remaining iteration budget as `fuel`: query the model; return a
final-answer span if present (appending the raw response to history);
return the raw response if no tool calls were extracted (ditto); otherwise
dispatch every tool call, append the response and the results block to the
working message list and loop. -/
def reactLoop (a : ReActAgent) :
    Nat → List Message → List Message → Nat → List PyVal →
    Except PyError RunTrace
  | 0, _, hist, calls, disp =>
    .ok { answer := maxIterSentinel, history := hist, llmCalls := calls,
          dispatched := disp }
  | fuel + 1, msgs, hist, calls, disp =>
    let resp := a.llm msgs
    match extract_final_response resp with
    | some fin =>
      .ok { answer := fin, history := hist ++ [⟨"assistant", resp⟩],
            llmCalls := calls + 1, dispatched := disp }
    | Option.none =>
      match extract_tool_calls resp with
      | .error e => .error e
      | .ok [] =>
        .ok { answer := resp, history := hist ++ [⟨"assistant", resp⟩],
              llmCalls := calls + 1, dispatched := disp }
      | .ok (tc :: tcs) =>
        match executeAll a.tools (tc :: tcs) with
        | .error e => .error e
        | .ok results =>
          reactLoop a fuel
            (msgs ++ [⟨"assistant", resp⟩, ⟨"user", resultsText results⟩])
            hist (calls + 1) (disp ++ (tc :: tcs))

/-- The initial working message list of a `run` call: the system message
(instructions plus formatted tool block) followed by the updated
conversation history. -/
def initialMessages (system_prompt : String) (reg : List (String × Tool))
    (hist : List Message) : List Message :=
  ⟨"system", system_prompt ++ "\n\n" ++ format_tools_for_prompt reg⟩ :: hist

/-- `ReActAgent.run`: append the user input to the conversation history,
build the working message list, and run the iteration loop. -/
def ReActAgent.run (a : ReActAgent) (user_input : String) :
    Except PyError RunTrace :=
  let hist := a.conversation_history ++ [⟨"user", user_input⟩]
  reactLoop a a.max_iterations (initialMessages a.system_prompt a.tools hist)
    hist 0 []

/-- The agent value as `ReActAgent.run` leaves it: the same object with the
conversation history the method accumulated; no other attribute is
assigned anywhere in the method body. -/
def ReActAgent.runState (a : ReActAgent) (user_input : String) :
    Except PyError (String × ReActAgent) :=
  (a.run user_input).map (fun tr =>
    (tr.answer,
     { llm := a.llm, system_prompt := a.system_prompt, tools := a.tools,
       conversation_history := tr.history,
       max_iterations := a.max_iterations }))

/-- `ReActAgent.reset_conversation`. -/
def ReActAgent.reset_conversation (a : ReActAgent) : ReActAgent :=
  { a with conversation_history := [] }

/-- The `ToolCallingAgent`: like `ReActAgent` but single-round and without
an iteration bound. -/
structure ToolCallingAgent where
  llm : List Message → String
  system_prompt : String
  tools : List (String × Tool)
  conversation_history : List Message

/-- `ToolCallingAgent.__init__`. -/
def ToolCallingAgent.make (llm : List Message → String) (system_prompt : String)
    (tools : List Tool) : ToolCallingAgent :=
  { llm := llm
    system_prompt := system_prompt
    tools := buildRegistry tools
    conversation_history := [] }

/-- `ToolCallingAgent.run`: one completion call; with no extracted tool
calls the response is final; otherwise dispatch every tool call once,
issue exactly one further completion call with the response and the results
block appended, and return that second completion unconditionally.  Either
way the final response is appended to the conversation history. -/
def ToolCallingAgent.run (a : ToolCallingAgent) (user_input : String) :
    Except PyError RunTrace :=
  let hist := a.conversation_history ++ [⟨"user", user_input⟩]
  let msgs := initialMessages a.system_prompt a.tools hist
  let resp := a.llm msgs
  match extract_tool_calls resp with
  | .error e => .error e
  | .ok [] =>
    .ok { answer := resp, history := hist ++ [⟨"assistant", resp⟩],
          llmCalls := 1, dispatched := [] }
  | .ok (tc :: tcs) =>
    match executeAll a.tools (tc :: tcs) with
    | .error e => .error e
    | .ok results =>
      let fin := a.llm (msgs ++ [⟨"assistant", resp⟩, ⟨"user", resultsText results⟩])
      .ok { answer := fin, history := hist ++ [⟨"assistant", fin⟩],
            llmCalls := 2, dispatched := tc :: tcs }

/-- The agent value as `ToolCallingAgent.run` leaves it (see
`ReActAgent.runState`). -/
def ToolCallingAgent.runState (a : ToolCallingAgent) (user_input : String) :
    Except PyError (String × ToolCallingAgent) :=
  (a.run user_input).map (fun tr =>
    (tr.answer,
     { llm := a.llm, system_prompt := a.system_prompt, tools := a.tools,
       conversation_history := tr.history }))

/-- `ToolCallingAgent.reset_conversation`. -/
def ToolCallingAgent.reset_conversation (a : ToolCallingAgent) : ToolCallingAgent :=
  { a with conversation_history := [] }

/-! ## Concrete fixtures

A small tool inventory used to evaluate the theorems below on concrete
inputs (mirroring the `add` example tools of the repository's test
scripts). -/

/-- Reflection view of the test script's `add(a: int, b: int) -> int`. -/
def addFn : PyFunc :=
  { name := "add", doc := some "Add two numbers",
    anns := [("a", "int"), ("b", "int"), ("return", "int")],
    params := ["a", "b"] }

/-- Behaviour of the `add` callable: integer addition, a `TypeError`
message on unsuitable operands. -/
def addImpl : List (String × PyVal) → Except String PyVal := fun kvs =>
  match dictGet kvs "a", dictGet kvs "b" with
  | some (.int x), some (.int y) => .ok (.int (x + y))
  | _, _ => .error "unsupported operand type(s)"

/-- The registered `add` tool. -/
def addTool : Tool := tool addFn addImpl

/-- A second tool bearing the same name `add` (its behaviour differs so
shadowing is observable). -/
def addTool2 : Tool := tool addFn (fun _ => .ok (.str "shadowed"))

/-- A callable with one parameter `x` that carries no type annotation:
`__annotations__` is empty while the signature declares `x`. -/
def unannotatedFn : PyFunc :=
  { name := "g", doc := Option.none, anns := [], params := ["x"] }

/-- Modelled from the spec: the "callable's declared-argument-name set
minus any return annotation" — the full parameter list of the signature
(excluding a return entry), which is what §8 of the spec compares the
derived specification against. -/
def declaredArgNames (f : PyFunc) : List String :=
  f.params.filter (fun p => p ≠ "return")

/-- A ReAct agent whose completion capability always answers with a
`<response>` span (and a decoy tool call before it). -/
def reactEg : ReActAgent := ReActAgent.make
  (fun _ => "hmm <tool_call>\x7b\"name\": \"add\", \"arguments\": \x7b\x7d\x7d</tool_call> <response> The answer is 42. </response>")
  "You are helpful" [addTool] 3

/-- A ReAct agent whose completion capability always demands a tool call
and never yields a final answer. -/
def loopEg : ReActAgent := ReActAgent.make
  (fun _ => "<tool_call>\x7b\"name\": \"add\", \"arguments\": \x7b\"a\": 1, \"b\": 2\x7d\x7d</tool_call>")
  "sys" [addTool] 4

/-- A tool-calling agent whose completion capability asks for one tool
call on the first completion and answers `"done"` on the second. -/
def tcaEg : ToolCallingAgent := ToolCallingAgent.make
  (fun ms => if ms.length == 2 then "<tool_call>\x7b\"name\": \"add\", \"arguments\": \x7b\"a\": 1, \"b\": 2\x7d\x7d</tool_call>" else "done")
  "sys" [addTool]

/-- A tool-calling agent whose completion capability returns plain text. -/
def tcaPlainEg : ToolCallingAgent := ToolCallingAgent.make
  (fun _ => "just chatting, no directives") "sys" [addTool]

/-- The kept record of a `<tool_call>` span whose payload parses to an
object carrying both required keys, if any. -/
def wellFormedPayload (m : String) : Option PyVal :=
  match json_loads (pyStrip m) with
  | some (.obj kvs) =>
    if hasKey kvs "name" && hasKey kvs "arguments" then some (.obj kvs)
    else Option.none
  | _ => Option.none

/-- A span payload is benign when it fails to parse or parses to an
object — the shapes on which the extractor's membership test cannot
raise. -/
def benignPayload (m : String) : Bool :=
  match json_loads (pyStrip m) with
  | some v => v.isObj
  | Option.none => true

/-! ## Helper lemmas -/

/-- The validation block on a dict payload yields exactly the validated
keyword arguments. -/
theorem validated_args_obj (t : Tool) (args : List (String × PyVal)) :
    validated_args t (.obj args) = .obj (effectiveArgs t args) := by
  cases h : json_loads t.specification <;>
    simp [validated_args, effectiveArgs, h]

/-- `execute_tool` on a dict payload carrying a string name, reduced to its
case split on registry lookup, validation and invocation outcome. -/
theorem execute_tool_call_eq (reg : List (String × Tool)) (n : String)
    (args : List (String × PyVal)) :
    execute_tool reg (.obj [("name", .str n), ("arguments", .obj args)]) =
      .ok (match regLookup reg n with
        | Option.none => .str ("Error: Tool '" ++ n ++ "' not found")
        | some t =>
          match validated_args t (.obj args) with
          | .obj akvs =>
            match t.func akvs with
            | .ok v => v
            | .error msg => .str ("Error executing " ++ n ++ ": " ++ msg)
          | _ => .str ("Error executing " ++ n ++ ": argument after ** must be a mapping")) :=
  rfl

/-- C3: for every tool-call record (a dict with a string name and a dict
argument mapping), `execute_tool` returns normally and never raises: an
unregistered name yields exactly `Error: Tool '<name>' not found`; a
registered tool whose invocation (on the validated arguments) raises
yields `Error executing <name>: <message>`; a succeeding invocation's raw
result is returned unchanged. -/
theorem claim_C3_execute_tool_never_raises (reg : List (String × Tool))
    (n : String) (args : List (String × PyVal)) :
    (regLookup reg n = Option.none →
      execute_tool reg (.obj [("name", .str n), ("arguments", .obj args)])
        = .ok (.str ("Error: Tool '" ++ n ++ "' not found"))) ∧
    (∀ t msg, regLookup reg n = some t →
      t.func (effectiveArgs t args) = .error msg →
      execute_tool reg (.obj [("name", .str n), ("arguments", .obj args)])
        = .ok (.str ("Error executing " ++ n ++ ": " ++ msg))) ∧
    (∀ t v, regLookup reg n = some t →
      t.func (effectiveArgs t args) = .ok v →
      execute_tool reg (.obj [("name", .str n), ("arguments", .obj args)])
        = .ok v) := by
  refine ⟨fun h => ?_, fun t msg h hf => ?_, fun t v h hf => ?_⟩ <;>
    rw [execute_tool_call_eq, h] <;>
    simp only [validated_args_obj] <;>
    rw [hf]

/-- Witness for C3: the three outcomes at concrete inputs — unknown tool
name, a raising invocation (non-numeric operand reaches `add`), and a
successful invocation (its raw result `30` returned unchanged). -/
theorem claim_C3_witness :
    execute_tool (buildRegistry [addTool])
        (.obj [("name", .str "nope"), ("arguments", .obj [])])
      = .ok (.str "Error: Tool 'nope' not found") ∧
    execute_tool (buildRegistry [addTool])
        (.obj [("name", .str "add"),
               ("arguments", .obj [("a", .str "x"), ("b", .int 2)])])
      = .ok (.str "Error executing add: unsupported operand type(s)") ∧
    execute_tool (buildRegistry [addTool])
        (.obj [("name", .str "add"),
               ("arguments", .obj [("a", .str "10"), ("b", .str "20")])])
      = .ok (.int 30) :=
  ⟨(claim_C3_execute_tool_never_raises (buildRegistry [addTool]) "nope" []).1 rfl,
   (claim_C3_execute_tool_never_raises (buildRegistry [addTool]) "add"
      [("a", .str "x"), ("b", .int 2)]).2.1 addTool "unsupported operand type(s)" rfl rfl,
   (claim_C3_execute_tool_never_raises (buildRegistry [addTool]) "add"
      [("a", .str "10"), ("b", .str "20")]).2.2 addTool (.int 30) rfl rfl⟩

/-- C4: an argument whose value cannot convert to its declared primitive
type keeps its original value (the conversion error is caught inside the
coercion step, which is a total function), the argument list keeps its
length, and every argument is processed independently of the others. -/
theorem claim_C4_coercion_failure_keeps_value (spec : PyVal)
    (args : List (String × PyVal)) :
    (convert_argument_types spec args).length = args.length ∧
    (∀ (i : Nat) (n : String) (v : PyVal) (conv : PyConv),
      args[i]? = some (n, v) → declaredConv spec n = some conv →
      pyConvert conv v = Option.none →
      (convert_argument_types spec args)[i]? = some (n, v)) ∧
    (∀ (j : Nat) (e : String × PyVal), args[j]? = some e →
      (convert_argument_types spec args)[j]?
        = (convert_argument_types spec [e])[0]?) := by
  cases hp : propsOf spec with
  | none =>
    refine ⟨by simp [convert_argument_types, hp], fun i n v conv h1 _ _ => ?_,
      fun j e h => ?_⟩
    · simpa [convert_argument_types, hp] using h1
    · simp [convert_argument_types, hp, h]
  | some props =>
    refine ⟨by simp [convert_argument_types, hp], fun i n v conv h1 h2 h3 => ?_,
      fun j e h => ?_⟩
    · have h2' : (declaredTag props n).bind typeMapping = some conv := by
        simpa [declaredConv, hp] using h2
      simp only [convert_argument_types, hp, List.getElem?_map, h1,
        Option.map_some']
      have : convertEntry props (n, v) = (n, v) := by
        unfold convertEntry
        rw [h2']
        by_cases hi : pyIsInstance v conv
        · simp [hi]
        · simp [hi, h3]
      rw [this]
    · simp [convert_argument_types, hp, h]

/-- Witness for C4: under the `add` specification, `"abc"` (declared
`int`) fails to convert and keeps its original value, while the sibling
argument of the same call is still processed (converted). -/
theorem claim_C4_witness :
    (convert_argument_types (extract_function_metadata addFn)
        [("a", .str "abc"), ("b", .str "7")]).length = 2 ∧
    (convert_argument_types (extract_function_metadata addFn)
        [("a", .str "abc"), ("b", .str "7")])[0]? = some ("a", .str "abc") ∧
    (convert_argument_types (extract_function_metadata addFn)
        [("a", .str "abc"), ("b", .str "7")])[1]?
      = (convert_argument_types (extract_function_metadata addFn)
          [("b", .str "7")])[0]? :=
  ⟨(claim_C4_coercion_failure_keeps_value (extract_function_metadata addFn)
      [("a", .str "abc"), ("b", .str "7")]).1,
   (claim_C4_coercion_failure_keeps_value (extract_function_metadata addFn)
      [("a", .str "abc"), ("b", .str "7")]).2.1 0 "a" (.str "abc") .toInt rfl rfl rfl,
   (claim_C4_coercion_failure_keeps_value (extract_function_metadata addFn)
      [("a", .str "abc"), ("b", .str "7")]).2.2 1 ("b", .str "7") rfl⟩

/-- C8: coercion is a no-op on an argument whose runtime type already
matches its declared primitive (no conversion is attempted), on an
argument the specification does not mention, and on a whole call when the
specification lacks a `parameters.properties` section. -/
theorem claim_C8_matching_type_noop (spec : PyVal)
    (args : List (String × PyVal)) :
    (∀ (i : Nat) (n : String) (v : PyVal) (conv : PyConv),
      args[i]? = some (n, v) → declaredConv spec n = some conv →
      pyIsInstance v conv = true →
      (convert_argument_types spec args)[i]? = some (n, v)) ∧
    (∀ (i : Nat) (n : String) (v : PyVal),
      args[i]? = some (n, v) → declaredConv spec n = Option.none →
      (convert_argument_types spec args)[i]? = some (n, v)) ∧
    (propsOf spec = Option.none → convert_argument_types spec args = args) := by
  refine ⟨fun i n v conv h1 h2 h3 => ?_, fun i n v h1 h2 => ?_, fun hp => ?_⟩
  · cases hp : propsOf spec with
    | none => simpa [convert_argument_types, hp] using h1
    | some props =>
      have h2' : (declaredTag props n).bind typeMapping = some conv := by
        simpa [declaredConv, hp] using h2
      simp only [convert_argument_types, hp, List.getElem?_map, h1,
        Option.map_some']
      have : convertEntry props (n, v) = (n, v) := by
        unfold convertEntry
        rw [h2']
        simp [h3]
      rw [this]
  · cases hp : propsOf spec with
    | none => simpa [convert_argument_types, hp] using h1
    | some props =>
      have h2' : (declaredTag props n).bind typeMapping = Option.none := by
        simpa [declaredConv, hp] using h2
      simp only [convert_argument_types, hp, List.getElem?_map, h1,
        Option.map_some']
      have : convertEntry props (n, v) = (n, v) := by
        unfold convertEntry
        rw [h2']
      rw [this]
  · simp [convert_argument_types, hp]

/-- Witness for C8: an `int`-declared argument already holding an int is
untouched, an argument absent from the specification passes through, and a
specification without `parameters.properties` short-circuits. -/
theorem claim_C8_witness :
    (convert_argument_types (extract_function_metadata addFn)
        [("a", .int 5), ("z", .str "q")])[0]? = some ("a", .int 5) ∧
    (convert_argument_types (extract_function_metadata addFn)
        [("a", .int 5), ("z", .str "q")])[1]? = some ("z", .str "q") ∧
    convert_argument_types (.obj [("name", .str "bare")])
        [("a", .str "10")] = [("a", .str "10")] :=
  ⟨(claim_C8_matching_type_noop (extract_function_metadata addFn)
      [("a", .int 5), ("z", .str "q")]).1 0 "a" (.int 5) .toInt rfl rfl rfl,
   (claim_C8_matching_type_noop (extract_function_metadata addFn)
      [("a", .int 5), ("z", .str "q")]).2.1 1 "z" (.str "q") rfl rfl,
   (claim_C8_matching_type_noop (.obj [("name", .str "bare")])
      [("a", .str "10")]).2.2 rfl⟩

/-- C9: for a `bool`/`boolean`-declared argument whose value is not
already a bool, coercion applies Python truthiness — every non-empty
string (including `"false"`, `"False"`, `"0"`) becomes `True`, and the
values coercing to `False` are exactly the empty/zero ones; no
string-literal boolean parsing is performed. -/
theorem claim_C9_bool_coercion_is_truthiness :
    (∀ (spec : PyVal) (args : List (String × PyVal)) (i : Nat) (n : String)
      (v : PyVal) (tag : String), args[i]? = some (n, v) →
      (propsOf spec).bind (fun props => declaredTag props n) = some tag →
      (tag = "bool" ∨ tag = "boolean") → v.isBool = false →
      (convert_argument_types spec args)[i]? = some (n, .bool (pyTruthy v))) ∧
    pyTruthy (.str "false") = true ∧
    pyTruthy (.str "False") = true ∧
    pyTruthy (.str "0") = true ∧
    (∀ s, s ≠ "" → pyTruthy (.str s) = true) ∧
    (∀ v, pyTruthy v = false ↔
      (v = .str "" ∨ v = .int 0 ∨ v = .float 0 ∨ v = .none ∨ v = .bool false ∨
       v = .list [] ∨ v = .obj [])) := by
  refine ⟨fun spec args i n v tag h1 h2 htag hb => ?_, rfl, rfl, rfl,
    fun s hs => ?_, fun v => ?_⟩
  · cases hp : propsOf spec with
    | none =>
      rw [hp] at h2
      exact Option.noConfusion h2
    | some props =>
      rw [hp] at h2
      replace h2 : declaredTag props n = some tag := h2
      have hconv : (declaredTag props n).bind typeMapping = some .toBool := by
        rw [h2]
        rcases htag with h | h <;> subst h <;> rfl
      simp only [convert_argument_types, hp, List.getElem?_map, h1,
        Option.map_some']
      have hinst : pyIsInstance v .toBool = false := by
        simpa [pyIsInstance] using hb
      have : convertEntry props (n, v) = (n, .bool (pyTruthy v)) := by
        unfold convertEntry
        rw [hconv]
        simp [hinst, pyConvert]
      rw [this]
  · simp [pyTruthy, hs]
  · cases v <;> simp [pyTruthy]

/-- Witness for C9: `"false"` declared `boolean` coerces to `True`
(truthiness, not literal parsing), and the falsy characterisation holds at
the integer zero. -/
theorem claim_C9_witness :
    (convert_argument_types
        (.obj [("parameters", .obj [("properties",
          .obj [("flag", .obj [("type", .str "boolean")])])])])
        [("flag", .str "false")])[0]? = some ("flag", .bool true) ∧
    pyTruthy (.str "False") = true ∧
    (pyTruthy (.int 0) = false ↔ True) :=
  ⟨claim_C9_bool_coercion_is_truthiness.1
      (.obj [("parameters", .obj [("properties",
        .obj [("flag", .obj [("type", .str "boolean")])])])])
      [("flag", .str "false")] 0 "flag" (.str "false") "boolean"
      rfl rfl (Or.inr rfl) rfl,
   claim_C9_bool_coercion_is_truthiness.2.2.1,
   iff_true_intro ((claim_C9_bool_coercion_is_truthiness.2.2.2.2.2
      (.int 0)).mpr (by simp))⟩

/-- A key absent from the key list is not found by `hasKey`. -/
theorem hasKey_eq_false {kvs : List (String × PyVal)} {k : String}
    (h : k ∉ kvs.map Prod.fst) : hasKey kvs k = false := by
  rw [hasKey, List.any_eq_false]
  intro p hp
  simp only [beq_iff_eq]
  intro he
  exact h (he ▸ List.mem_map_of_mem Prod.fst hp)

/-- Inserting a fresh key appends the entry. -/
theorem dictInsert_fresh {kvs : List (String × PyVal)} {k : String}
    (h : hasKey kvs k = false) (v : PyVal) :
    dictInsert kvs k v = kvs ++ [(k, v)] := by
  simp [dictInsert, h]

/-- The key list of the `parameter_types` fold: with distinct annotation
keys (as a Python dict guarantees) it is the annotation-name list minus
`"return"`, appended to the keys already accumulated. -/
theorem propsOfAnns_keys :
    ∀ (anns : List (String × String)) (acc : List (String × PyVal)),
      (acc.map Prod.fst ++ anns.map Prod.fst).Nodup →
      ((anns.foldl (fun acc p =>
          if p.1 == "return" then acc
          else dictInsert acc p.1 (.obj [("type", .str p.2)])) acc).map Prod.fst)
        = acc.map Prod.fst ++ (anns.map Prod.fst).filter (fun p => p ≠ "return")
  | [], acc, _ => by simp
  | (k, ty) :: rest, acc, h => by
    simp only [List.foldl_cons]
    by_cases hk : k = "return"
    · rw [if_pos (by simpa using hk)]
      have hsub : (acc.map Prod.fst ++ rest.map Prod.fst).Sublist
          (acc.map Prod.fst ++ (k :: rest.map Prod.fst)) :=
        List.Sublist.append_left (List.sublist_cons_self k (rest.map Prod.fst)) _
      have h' : (acc.map Prod.fst ++ rest.map Prod.fst).Nodup :=
        List.Nodup.sublist hsub (by simpa using h)
      rw [propsOfAnns_keys rest acc h']
      simp [hk]
    · rw [if_neg (by simpa using hk)]
      have hnotin : k ∉ acc.map Prod.fst := by
        intro hmem
        rcases List.nodup_append.mp (by simpa using h) with ⟨_, _, hdisj⟩
        exact hdisj hmem (List.mem_cons_self k _)
      have hfresh := dictInsert_fresh (hasKey_eq_false hnotin)
        (.obj [("type", .str ty)])
      rw [hfresh]
      have h' : ((acc ++ [(k, PyVal.obj [("type", .str ty)])]).map Prod.fst
          ++ rest.map Prod.fst).Nodup := by
        simpa [List.append_assoc] using h
      rw [propsOfAnns_keys rest _ h']
      simp [hk, List.append_assoc]

/-- C5 counterexample: for a callable declaring the parameter `x` without
a type annotation, the derived specification's parameter-name set is empty
and so differs from the declared-argument-name set `{x}`; the parameter is
dropped from the specification rather than kept with an unknown tag. -/
theorem claim_C5_counterexample :
    metaPropNames (extract_function_metadata unannotatedFn)
      ≠ declaredArgNames unannotatedFn ∧
    "x" ∈ unannotatedFn.params ∧
    "x" ∉ metaPropNames (extract_function_metadata unannotatedFn) := by
  decide

/-- C5 as amended: the derived specification's parameter-name set equals
the callable's *annotated*-argument-name set minus any return annotation
(annotation keys are distinct, being Python dict keys); a parameter with
no declared type is dropped from the specification entirely — in
particular every derived parameter name is an annotated name. -/
theorem claim_C5_amended (f : PyFunc) (h : (f.anns.map Prod.fst).Nodup) :
    metaPropNames (extract_function_metadata f)
      = (f.anns.map Prod.fst).filter (fun p => p ≠ "return") ∧
    ∀ p, p ∈ metaPropNames (extract_function_metadata f) →
      p ∈ f.anns.map Prod.fst := by
  have hkeys0 : (propsOfAnns f.anns).map Prod.fst
      = ([] : List String)
        ++ (f.anns.map Prod.fst).filter (fun p => p ≠ "return") :=
    propsOfAnns_keys f.anns [] (by simpa using h)
  have hkeys : (propsOfAnns f.anns).map Prod.fst
      = (f.anns.map Prod.fst).filter (fun p => p ≠ "return") := by
    rw [hkeys0, List.nil_append]
  have hm : metaPropNames (extract_function_metadata f)
      = (propsOfAnns f.anns).map Prod.fst := rfl
  refine ⟨hm.trans hkeys, fun p hp => ?_⟩
  rw [hm, hkeys] at hp
  exact (List.mem_filter.mp hp).1

/-- Witness for C5 (amended): the `add` callable's derived parameter
names are exactly `a`, `b` (its annotated names minus `return`). -/
theorem claim_C5_witness :
    metaPropNames (extract_function_metadata addFn) = ["a", "b"] ∧
    "a" ∈ addFn.anns.map Prod.fst :=
  ⟨(claim_C5_amended addFn (by decide)).1,
   (claim_C5_amended addFn (by decide)).2 "a" (by decide)⟩

/-- C2 counterexample: a span whose payload parses to a number makes the
extractor raise `TypeError` (the uncaught membership test `"name" in 5`)
instead of silently dropping the span. -/
theorem claim_C2_counterexample :
    extract_tool_calls "<tool_call>5</tool_call>" = .error .typeError := rfl

/-- The extraction loop on spans whose payloads are benign (unparseable or
object-shaped): one record per object payload carrying both keys, in span
order, all other spans dropped, and no exception. -/
theorem processSpans_benign :
    ∀ ms : List String, (∀ m ∈ ms, benignPayload m = true) →
      processSpans ms = .ok (ms.filterMap wellFormedPayload)
  | [], _ => rfl
  | m :: rest, h => by
    have hm : benignPayload m = true := h m (List.mem_cons_self m rest)
    have hrest := processSpans_benign rest
      (fun x hx => h x (List.mem_cons_of_mem m hx))
    cases hj : json_loads (pyStrip m) with
    | none =>
      simp only [processSpans, hj, List.filterMap_cons]
      rw [hrest]
      simp [wellFormedPayload, hj]
    | some v =>
      have hobj : v.isObj = true := by simpa [benignPayload, hj] using hm
      cases v with
      | obj kvs =>
        simp only [processSpans, hj, List.filterMap_cons]
        cases hn : hasKey kvs "name" <;> cases ha : hasKey kvs "arguments" <;>
          simp [pyInStr, hn, ha, hrest, wellFormedPayload, hj,
            Bind.bind, Except.bind, Pure.pure, Except.pure]
      | none => simp [PyVal.isObj] at hobj
      | bool b => simp [PyVal.isObj] at hobj
      | int n => simp [PyVal.isObj] at hobj
      | float q => simp [PyVal.isObj] at hobj
      | str s => simp [PyVal.isObj] at hobj
      | list xs => simp [PyVal.isObj] at hobj

/-- C2 as amended: for every text all of whose `<tool_call>` payloads are
benign (fail to parse, or parse to an object), the extractor returns — in
order of appearance and without raising — exactly one record per span
whose object payload carries both a `"name"` and an `"arguments"` key,
and zero records for every other span.  (A payload parsing to a number,
boolean or `null` instead raises `TypeError`, see the counterexample; a
payload parsing to a string or array is subjected to Python's membership
test on its elements or characters.) -/
theorem claim_C2_amended (text : String)
    (h : ∀ m ∈ toolCallSpans text, benignPayload m = true) :
    extract_tool_calls text
      = .ok ((toolCallSpans text).filterMap wellFormedPayload) :=
  processSpans_benign (toolCallSpans text) h

/-- Witness for C2 (amended): a response holding a well-formed span, a
span missing the `arguments` key and an unparseable span yields exactly
the one well-formed record. -/
theorem claim_C2_witness :
    extract_tool_calls
        ("x<tool_call>\x7b\"name\": \"a\", \"arguments\": \x7b\x7d\x7d</tool_call> mid " ++
         "<tool_call>\x7b\"name\": \"b\"\x7d</tool_call><tool_call>nope</tool_call>")
      = .ok [.obj [("name", .str "a"), ("arguments", .obj [])]] :=
  claim_C2_amended _ (by decide)

/-- A value-replacing dict write leaves lookups of other keys unchanged. -/
theorem regLookup_replace_other (reg : List (String × Tool)) (t : Tool)
    (n : String) (htn : (t.name == n) = false) :
    regLookup (reg.map (fun p => if p.1 == t.name then (p.1, t) else p)) n
      = regLookup reg n := by
  induction reg with
  | nil => rfl
  | cons a rest ih =>
    rw [List.map_cons, regLookup, List.find?_cons, regLookup, List.find?_cons]
    have hkey : (if a.1 == t.name then (a.1, t) else a).1 = a.1 := by
      by_cases hkt : a.1 == t.name <;> simp [hkt]
    rw [hkey]
    cases hkn : a.1 == n with
    | true =>
      have h1 : a.1 = n := eq_of_beq hkn
      have h2 : (a.1 == t.name) = false := by
        rw [h1, beq_eq_false_iff_ne]
        exact fun he => (beq_eq_false_iff_ne.mp htn) he.symm
      simp [h2]
    | false => exact ih

/-- A value-replacing dict write makes lookups of the written key (when
present) return the new value. -/
theorem regLookup_replace_hit (reg : List (String × Tool)) (t : Tool)
    (n : String) (htn : (t.name == n) = true)
    (hmem : reg.any (fun p => p.1 == n) = true) :
    regLookup (reg.map (fun p => if p.1 == t.name then (p.1, t) else p)) n
      = some t := by
  induction reg with
  | nil => simp at hmem
  | cons a rest ih =>
    rw [List.map_cons, regLookup, List.find?_cons]
    have hkey : (if a.1 == t.name then (a.1, t) else a).1 = a.1 := by
      by_cases hkt : a.1 == t.name <;> simp [hkt]
    rw [hkey]
    cases hkn : a.1 == n with
    | true =>
      have h2 : (a.1 == t.name) = true := by
        rw [eq_of_beq hkn, beq_iff_eq, eq_comm, ← beq_iff_eq]
        exact htn
      simp [h2]
    | false =>
      have hmem' : rest.any (fun p => p.1 == n) = true := by
        rw [List.any_cons, hkn] at hmem
        simpa using hmem
      exact ih hmem'

/-- Registry lookup after a dict insert: the inserted tool under its own
name, the previous answer under any other name.  This is the CPython
"last write wins" dict semantics. -/
theorem regLookup_insert (reg : List (String × Tool)) (t : Tool) (n : String) :
    regLookup (regInsert reg t) n
      = if t.name == n then some t else regLookup reg n := by
  by_cases hk : reg.any (fun p => p.1 == t.name)
  · rw [regInsert, if_pos hk]
    cases htn : t.name == n with
    | true =>
      have e : t.name = n := eq_of_beq htn
      have hmem : reg.any (fun p => p.1 == n) = true := e ▸ hk
      rw [regLookup_replace_hit reg t n htn hmem]
      simp
    | false =>
      rw [regLookup_replace_other reg t n htn]
      simp
  · rw [regInsert, if_neg hk]
    have hfind : regLookup (reg ++ [(t.name, t)]) n
        = (((reg.find? (fun p => p.1 == n)).or
            (List.find? (fun p => p.1 == n) [(t.name, t)])).map (fun p => p.2)) := by
      rw [regLookup, List.find?_append]
    rw [hfind]
    by_cases htn : t.name == n
    · have e : t.name = n := by simpa using htn
      have hfalse : reg.any (fun p => p.1 == t.name) = false := by
        cases hb : reg.any (fun p => p.1 == t.name) with
        | false => rfl
        | true => exact absurd hb hk
      have hnone : reg.find? (fun p => p.1 == n) = Option.none := by
        apply List.find?_eq_none.mpr
        intro x hx
        rw [← e]
        exact List.any_eq_false.mp hfalse x hx
      simp [hnone, List.find?_cons, htn]
    · cases hr : reg.find? (fun p => p.1 == n) <;>
        simp [List.find?_cons, htn, regLookup, hr]

/-- Registry lookup through the construction fold: the last tool of the
processed list bearing the name, falling back to the initial registry. -/
theorem buildRegistry_lookup_general :
    ∀ (ts : List Tool) (reg : List (String × Tool)) (n : String),
      regLookup (ts.foldl regInsert reg) n
        = (ts.reverse.find? (fun t => t.name == n)).or (regLookup reg n)
  | [], reg, n => by simp
  | t :: rest, reg, n => by
    simp only [List.foldl_cons, List.reverse_cons]
    rw [buildRegistry_lookup_general rest (regInsert reg t) n,
      List.find?_append, regLookup_insert]
    cases hr : rest.reverse.find? (fun t => t.name == n) with
    | some x => simp [Option.or]
    | none =>
      by_cases htn : t.name == n <;> simp [Option.or, List.find?_cons, htn]

/-- A dict insert preserves the key-equals-stored-name invariant. -/
theorem regInsert_inv (reg : List (String × Tool)) (t : Tool)
    (h : ∀ p ∈ reg, p.1 = p.2.name) :
    ∀ p ∈ regInsert reg t, p.1 = p.2.name := by
  intro p hp
  rw [regInsert] at hp
  by_cases hk : reg.any (fun q => q.1 == t.name)
  · rw [if_pos hk] at hp
    rcases List.mem_map.mp hp with ⟨q, hq, rfl⟩
    by_cases hqt : q.1 == t.name
    · simp only [if_pos hqt]
      simpa using hqt
    · simp only [if_neg hqt]
      exact h q hq
  · rw [if_neg hk] at hp
    rcases List.mem_append.mp hp with h1 | h1
    · exact h p h1
    · rw [List.mem_singleton.mp h1]

/-- The construction fold preserves the registry invariant. -/
theorem buildRegistry_inv_general :
    ∀ (ts : List Tool) (reg : List (String × Tool)),
      (∀ p ∈ reg, p.1 = p.2.name) →
      ∀ p ∈ ts.foldl regInsert reg, p.1 = p.2.name
  | [], _, h => h
  | t :: rest, reg, h =>
    buildRegistry_inv_general rest (regInsert reg t) (regInsert_inv reg t h)

/-- C10: the constructed registry maps each name to the *last* tool in the
tool list bearing it (a duplicate silently shadows earlier registrations,
no error); every registry key equals the stored tool's own name; and no
subsequent operation (`run` of either agent, `reset_conversation` of
either agent) changes the registry. -/
theorem claim_C10_registry_last_wins (ts : List Tool) :
    (∀ n, regLookup (buildRegistry ts) n
        = ts.reverse.find? (fun t => t.name == n)) ∧
    (∀ p ∈ buildRegistry ts, p.1 = p.2.name) ∧
    (∀ (a : ReActAgent) (input : String) (out : String × ReActAgent),
      a.runState input = .ok out → out.2.tools = a.tools) ∧
    (∀ (a : ToolCallingAgent) (input : String) (out : String × ToolCallingAgent),
      a.runState input = .ok out → out.2.tools = a.tools) ∧
    (∀ a : ReActAgent, a.reset_conversation.tools = a.tools) ∧
    (∀ a : ToolCallingAgent, a.reset_conversation.tools = a.tools) := by
  refine ⟨fun n => ?_, buildRegistry_inv_general ts [] (by simp),
    fun a input out h => ?_, fun a input out h => ?_, fun a => rfl, fun a => rfl⟩
  · rw [buildRegistry, buildRegistry_lookup_general]
    simp [regLookup]
  · cases hr : a.run input with
    | error e =>
      rw [ReActAgent.runState, hr] at h
      exact absurd h (by simp [Except.map])
    | ok tr =>
      rw [ReActAgent.runState, hr] at h
      injection h with h2
      rw [← h2]
  · cases hr : a.run input with
    | error e =>
      rw [ToolCallingAgent.runState, hr] at h
      exact absurd h (by simp [Except.map])
    | ok tr =>
      rw [ToolCallingAgent.runState, hr] at h
      injection h with h2
      rw [← h2]

/-- Witness for C10: with two tools both named `add`, lookup yields the
second (shadowing); the stored entry satisfies the key invariant; a run of
each agent and a reset leave the registry untouched. -/
theorem claim_C10_witness :
    regLookup (buildRegistry [addTool, addTool2]) "add" = some addTool2 ∧
    ("add", addTool2).1 = ("add", addTool2).2.name ∧
    ({ llm := loopEg.llm, system_prompt := loopEg.system_prompt,
       tools := loopEg.tools,
       conversation_history := [⟨"user", "go"⟩],
       max_iterations := loopEg.max_iterations } : ReActAgent).tools
      = loopEg.tools ∧
    ({ llm := tcaPlainEg.llm, system_prompt := tcaPlainEg.system_prompt,
       tools := tcaPlainEg.tools,
       conversation_history :=
         [⟨"user", "q"⟩, ⟨"assistant", "just chatting, no directives"⟩] } :
       ToolCallingAgent).tools = tcaPlainEg.tools ∧
    (ReActAgent.reset_conversation reactEg).tools = reactEg.tools :=
  ⟨(claim_C10_registry_last_wins [addTool, addTool2]).1 "add",
   (claim_C10_registry_last_wins [addTool, addTool2]).2.1 ("add", addTool2)
     (show _ ∈ [("add", addTool2)] from List.Mem.head _),
   (claim_C10_registry_last_wins [addTool, addTool2]).2.2.1 loopEg "go"
     (maxIterSentinel,
      { llm := loopEg.llm, system_prompt := loopEg.system_prompt,
        tools := loopEg.tools, conversation_history := [⟨"user", "go"⟩],
        max_iterations := loopEg.max_iterations }) rfl,
   (claim_C10_registry_last_wins [addTool, addTool2]).2.2.2.1 tcaPlainEg "q"
     ("just chatting, no directives",
      { llm := tcaPlainEg.llm, system_prompt := tcaPlainEg.system_prompt,
        tools := tcaPlainEg.tools,
        conversation_history :=
          [⟨"user", "q"⟩, ⟨"assistant", "just chatting, no directives"⟩] }) rfl,
   (claim_C10_registry_last_wins [addTool, addTool2]).2.2.2.2.1 reactEg⟩

/-- Dispatching a list of dict records never raises. -/
theorem executeAll_ok_of_objs (reg : List (String × Tool)) :
    ∀ l : List PyVal, l.all PyVal.isObj = true →
      ∃ rs, executeAll reg l = .ok rs
  | [], _ => ⟨[], rfl⟩
  | tc :: rest, h => by
    rw [List.all_cons, Bool.and_eq_true] at h
    obtain ⟨h1, h2⟩ := h
    obtain ⟨rs, hrs⟩ := executeAll_ok_of_objs reg rest h2
    cases tc with
    | obj kvs =>
      refine ⟨(.obj kvs, execObj reg kvs) :: rs, ?_⟩
      simp only [executeAll]
      rw [hrs]
      rfl
    | none => simp [PyVal.isObj] at h1
    | bool b => simp [PyVal.isObj] at h1
    | int n => simp [PyVal.isObj] at h1
    | float q => simp [PyVal.isObj] at h1
    | str s => simp [PyVal.isObj] at h1
    | list xs => simp [PyVal.isObj] at h1

/-- C6: when the model response contains a `<response>` span, the ReAct
loop returns `extract_final_response`'s capture (the trimmed inner text of
the first such span), appends the full raw response to the conversation
history, makes exactly one completion call and dispatches zero tool calls
— even when the response also contains `<tool_call>` spans. -/
theorem claim_C6_final_answer_short_circuits (a : ReActAgent)
    (input ans : String) (hpos : 0 < a.max_iterations)
    (h : extract_final_response (a.llm (initialMessages a.system_prompt a.tools
        (a.conversation_history ++ [⟨"user", input⟩]))) = some ans) :
    a.run input = .ok
      { answer := ans,
        history := a.conversation_history ++ [⟨"user", input⟩,
          ⟨"assistant", a.llm (initialMessages a.system_prompt a.tools
            (a.conversation_history ++ [⟨"user", input⟩]))⟩],
        llmCalls := 1, dispatched := [] } := by
  obtain ⟨k, hk⟩ : ∃ k, a.max_iterations = k + 1 :=
    ⟨a.max_iterations - 1, by omega⟩
  simp only [ReActAgent.run, hk, reactLoop, h]
  simp

/-- Witness for C6: a response carrying both a decoy `<tool_call>` span
and a `<response>` span makes the loop return exactly the trimmed span
text with zero dispatches and one completion call. -/
theorem claim_C6_witness :
    reactEg.run "hi" = .ok
      { answer := "The answer is 42.",
        history := [⟨"user", "hi"⟩,
          ⟨"assistant", "hmm <tool_call>\x7b\"name\": \"add\", \"arguments\": \x7b\x7d\x7d</tool_call> <response> The answer is 42. </response>"⟩],
        llmCalls := 1, dispatched := [] } :=
  claim_C6_final_answer_short_circuits reactEg "hi" "The answer is 42."
    (by decide) rfl

/-- The ReAct iteration loop under a completion capability that never
produces a final answer and always produces a non-empty, well-shaped
tool-call list: every iteration consumes one unit of budget and one
completion call, and exhaustion returns the sentinel with the history
untouched. -/
theorem reactLoop_exhausts (a : ReActAgent)
    (h : ∀ msgs, extract_final_response (a.llm msgs) = Option.none ∧
      ∃ tc tcs, extract_tool_calls (a.llm msgs) = .ok (tc :: tcs) ∧
        (tc :: tcs).all PyVal.isObj = true) :
    ∀ (fuel : Nat) (msgs hist : List Message) (calls : Nat) (disp : List PyVal),
      ∃ d, reactLoop a fuel msgs hist calls disp
        = .ok { answer := maxIterSentinel, history := hist,
                llmCalls := calls + fuel, dispatched := d }
  | 0, msgs, hist, calls, disp => ⟨disp, by simp [reactLoop]⟩
  | fuel + 1, msgs, hist, calls, disp => by
    obtain ⟨hf, tc, tcs, hex, hobjs⟩ := h msgs
    obtain ⟨rs, hrs⟩ := executeAll_ok_of_objs a.tools _ hobjs
    obtain ⟨d, hd⟩ := reactLoop_exhausts a h fuel
      (msgs ++ [⟨"assistant", a.llm msgs⟩, ⟨"user", resultsText rs⟩]) hist
      (calls + 1) (disp ++ (tc :: tcs))
    refine ⟨d, ?_⟩
    have harith : calls + 1 + fuel = calls + (fuel + 1) := by omega
    simp only [reactLoop, hf, hex, hrs, hd, harith]

/-- C1: a ReAct agent configured with `max_iterations = N`, driven by a
completion capability that never emits a `<response>` span and always
yields at least one extracted tool call (tool-call records being dicts, as
the data model defines them), performs exactly `N` iterations — one
completion call each — then returns the literal sentinel and appends
nothing beyond the user message to the conversation history.  In
particular it never loops unboundedly. -/
theorem claim_C1_loop_terminates_at_bound (a : ReActAgent) (input : String)
    (h : ∀ msgs, extract_final_response (a.llm msgs) = Option.none ∧
      ∃ tc tcs, extract_tool_calls (a.llm msgs) = .ok (tc :: tcs) ∧
        (tc :: tcs).all PyVal.isObj = true) :
    (a.run input).map (fun tr => (tr.answer, tr.history, tr.llmCalls))
      = .ok (maxIterSentinel,
          a.conversation_history ++ [⟨"user", input⟩], a.max_iterations) := by
  obtain ⟨d, hd⟩ := reactLoop_exhausts a h a.max_iterations
    (initialMessages a.system_prompt a.tools
      (a.conversation_history ++ [⟨"user", input⟩]))
    (a.conversation_history ++ [⟨"user", input⟩]) 0 []
  simp only [ReActAgent.run]
  rw [hd]
  simp [Except.map]

/-- Witness for C1: the always-tool-calling agent with budget 4 makes
exactly 4 completion calls, returns the sentinel, and its history gains
only the user message. -/
theorem claim_C1_witness :
    (loopEg.run "go").map (fun tr => (tr.answer, tr.history, tr.llmCalls))
      = .ok ("Max iterations reached without a final response.",
          [⟨"user", "go"⟩], 4) :=
  claim_C1_loop_terminates_at_bound loopEg "go"
    (fun _ => ⟨rfl,
      .obj [("name", .str "add"),
            ("arguments", .obj [("a", .int 1), ("b", .int 2)])], [], rfl, rfl⟩)

/-- C7: the single-round agent returns the first completion verbatim with
zero dispatches when it yields no tool calls; otherwise it dispatches each
extracted call exactly once in extraction order, issues exactly one
further completion call with the assistant response and the results block
appended, and returns that second completion unconditionally (no re-entry
into the dispatch phase); dispatching a list of well-shaped records never
raises. -/
theorem claim_C7_single_round_dispatch (a : ToolCallingAgent) (input : String) :
    (extract_tool_calls (a.llm (initialMessages a.system_prompt a.tools
        (a.conversation_history ++ [⟨"user", input⟩]))) = .ok [] →
      a.run input = .ok
        { answer := a.llm (initialMessages a.system_prompt a.tools
            (a.conversation_history ++ [⟨"user", input⟩])),
          history := a.conversation_history ++ [⟨"user", input⟩,
            ⟨"assistant", a.llm (initialMessages a.system_prompt a.tools
              (a.conversation_history ++ [⟨"user", input⟩]))⟩],
          llmCalls := 1, dispatched := [] }) ∧
    (∀ tc tcs results,
      extract_tool_calls (a.llm (initialMessages a.system_prompt a.tools
        (a.conversation_history ++ [⟨"user", input⟩]))) = .ok (tc :: tcs) →
      executeAll a.tools (tc :: tcs) = .ok results →
      a.run input = .ok
        { answer := a.llm (initialMessages a.system_prompt a.tools
              (a.conversation_history ++ [⟨"user", input⟩])
            ++ [⟨"assistant", a.llm (initialMessages a.system_prompt a.tools
                  (a.conversation_history ++ [⟨"user", input⟩]))⟩,
                ⟨"user", resultsText results⟩]),
          history := a.conversation_history ++ [⟨"user", input⟩,
            ⟨"assistant", a.llm (initialMessages a.system_prompt a.tools
                (a.conversation_history ++ [⟨"user", input⟩])
              ++ [⟨"assistant", a.llm (initialMessages a.system_prompt a.tools
                    (a.conversation_history ++ [⟨"user", input⟩]))⟩,
                  ⟨"user", resultsText results⟩])⟩],
          llmCalls := 2, dispatched := tc :: tcs }) ∧
    (∀ tc tcs, extract_tool_calls (a.llm (initialMessages a.system_prompt a.tools
        (a.conversation_history ++ [⟨"user", input⟩]))) = .ok (tc :: tcs) →
      (tc :: tcs).all PyVal.isObj = true →
      ∃ results, executeAll a.tools (tc :: tcs) = .ok results) := by
  refine ⟨fun hext => ?_, fun tc tcs results hext hexec => ?_,
    fun tc tcs _ hobjs => executeAll_ok_of_objs a.tools _ hobjs⟩
  · simp only [ToolCallingAgent.run, hext]
    simp
  · simp only [ToolCallingAgent.run, hext, hexec]
    simp

/-- Witness for C7: a plain-text first completion is returned verbatim
with zero dispatches; a first completion demanding one tool call leads to
exactly one dispatch, a second completion call, and that second
completion (`"done"`) returned unconditionally. -/
theorem claim_C7_witness :
    tcaPlainEg.run "q" = .ok
      { answer := "just chatting, no directives",
        history := [⟨"user", "q"⟩,
          ⟨"assistant", "just chatting, no directives"⟩],
        llmCalls := 1, dispatched := [] } ∧
    tcaEg.run "q" = .ok
      { answer := "done",
        history := [⟨"user", "q"⟩, ⟨"assistant", "done"⟩],
        llmCalls := 2,
        dispatched := [.obj [("name", .str "add"),
          ("arguments", .obj [("a", .int 1), ("b", .int 2)])]] } :=
  ⟨(claim_C7_single_round_dispatch tcaPlainEg "q").1 rfl,
   (claim_C7_single_round_dispatch tcaEg "q").2.1
     (.obj [("name", .str "add"),
            ("arguments", .obj [("a", .int 1), ("b", .int 2)])]) []
     [(.obj [("name", .str "add"),
             ("arguments", .obj [("a", .int 1), ("b", .int 2)])], .int 3)]
     rfl rfl⟩

end AgentCore
